import Mathlib

/-!
Verification of the crux-es event-sourcing example (`examples/org.rs`) and the
backlog status tracker (`src/backlog.rs` with its `Order` test instance).

The Rust code is shallowly embedded: `HashMap<K, Vec<E>>` becomes an
association list `List (K × List E)` with first-occurrence lookup semantics
(keys stay duplicate-free under the operations the code performs), `&mut self`
methods become functions returning the updated value, and `Result` becomes
`Except`.  The broker's `publish` side effect (the Rust code prints each
batch) is modelled by returning the published batches from `commit`.
-/

set_option autoImplicit false

deriving instance DecidableEq for Except

namespace CruxEs

/-! ## Association-list operations standing in for `HashMap<K, Vec<V>>` -/

section AListOps

variable {k v : Type} [DecidableEq k]

/-- `m.get(&key).cloned().unwrap_or_default()`: the list stored at `key`,
or `[]` when absent. -/
def alGetD (m : List (k × List v)) (key : k) : List v :=
  match m with
  | [] => []
  | (a, b) :: rest => if a = key then b else alGetD rest key

/-- `m.entry(key).or_default().push(e)`: append one element to the list at
`key`, creating the entry when absent. -/
def alPush (m : List (k × List v)) (key : k) (e : v) : List (k × List v) :=
  match m with
  | [] => [(key, [e])]
  | (a, b) :: rest =>
      if a = key then (a, b ++ [e]) :: rest else (a, b) :: alPush rest key e

/-- `m.entry(key).or_default().extend(es)`: append a whole list at `key`,
creating the entry when absent. -/
def alExtend (m : List (k × List v)) (key : k) (es : List v) : List (k × List v) :=
  match m with
  | [] => [(key, es)]
  | (a, b) :: rest =>
      if a = key then (a, b ++ es) :: rest else (a, b) :: alExtend rest key es

/-- The `save` buffering loop: push every event onto the entry of its own key
(`for event in events { m.entry(f(event)).or_default().push(event) }`). -/
def bufferAll (f : v → k) (m : List (k × List v)) (events : List v) :
    List (k × List v) :=
  events.foldl (fun acc e => alPush acc (f e) e) m

/-- The `commit` append loop: for every `(id, events)` drained from the
uncommitted map, extend the durable entry of `id` with `events`. -/
def commitLogs (durable uncommitted : List (k × List v)) : List (k × List v) :=
  uncommitted.foldl (fun d p => alExtend d p.1 p.2) durable

end AListOps

/-! ## Domain model (`examples/org.rs`) -/

/-- `pub struct UserOrganizationId(pub String)` -/
structure UserOrganizationId where
  str : String
  deriving DecidableEq

/-- `pub struct OrganizationId(pub String)` -/
structure OrganizationId where
  str : String
  deriving DecidableEq

/-- `pub struct UserId(pub usize)` -/
structure UserId where
  num : Nat
  deriving DecidableEq

/-- `pub struct Organization` with `users: HashMap<UserId, UserOrganizationId>`
modelled as a duplicate-free association list. -/
structure Organization where
  name : String
  users : List (UserId × UserOrganizationId)
  maxUsers : Nat
  deriving DecidableEq

inductive OrganizationCommand where
  | Rename (name : String)
  | UserReserve (name : String)
  | AddUser (userId : UserId) (uoId : UserOrganizationId)
  | RemoveUser (userId : UserId)
  deriving DecidableEq

inductive OrganizationEvent where
  | Renamed (name : String)
  | UserReserved (uoId : UserOrganizationId)
  | UserAdded (userId : UserId) (uoId : UserOrganizationId)
  | UserRemoved (userId : UserId)
  deriving DecidableEq

inductive OrganizationError where
  | MaxUsersReached
  | UserNotFound
  deriving DecidableEq

/-- `HashMap::insert`: replace the value at the key if present, else add the
pair (position of a fresh key is the model's canonical choice: the end). -/
def mapInsert (m : List (UserId × UserOrganizationId)) (key : UserId)
    (val : UserOrganizationId) : List (UserId × UserOrganizationId) :=
  match m with
  | [] => [(key, val)]
  | (a, b) :: rest =>
      if a = key then (key, val) :: rest else (a, b) :: mapInsert rest key val

/-- `HashMap::remove` (first occurrence; keys are duplicate-free). -/
def mapRemove (m : List (UserId × UserOrganizationId)) (key : UserId) :
    List (UserId × UserOrganizationId) :=
  match m with
  | [] => []
  | (a, b) :: rest => if a = key then rest else (a, b) :: mapRemove rest key

/-- `HashMap::contains_key`. -/
def mapContains (m : List (UserId × UserOrganizationId)) (key : UserId) : Bool :=
  m.any fun p => p.1 = key

/-- `Organization::new` -/
def Organization.new (name : String) (maxUsers : Nat) : Organization :=
  { name := name, users := [], maxUsers := maxUsers }

/-- `impl Aggregate for Organization`, `fn apply_event` -/
def Organization.applyEvent (o : Organization) (e : OrganizationEvent) :
    Organization :=
  match e with
  | .Renamed name => { o with name := name }
  | .UserReserved _ => o
  | .UserAdded userId uoId => { o with users := mapInsert o.users userId uoId }
  | .UserRemoved userId => { o with users := mapRemove o.users userId }

/-- `impl Aggregate for Organization`, `fn handle_command` -/
def Organization.handleCommand (o : Organization) (c : OrganizationCommand) :
    Except OrganizationError (List OrganizationEvent) :=
  match c with
  | .Rename name => .ok [.Renamed name]
  | .UserReserve name => .ok [.UserReserved ⟨o.name ++ "-" ++ name⟩]
  | .AddUser userId uoId =>
      if o.users.length ≥ o.maxUsers then .error .MaxUsersReached
      else .ok [.UserAdded userId uoId]
  | .RemoveUser userId =>
      if mapContains o.users userId then .ok [.UserRemoved userId]
      else .error .UserNotFound

/-- `pub struct User` -/
structure User where
  name : String
  email : String
  organizationId : OrganizationId
  uoId : UserOrganizationId
  deriving DecidableEq

inductive UserCommand where
  | Rename (name : String)
  | ChangeEmail (email : String)
  deriving DecidableEq

inductive UserEvent where
  | Renamed (name : String)
  | EmailChanged (email : String)
  deriving DecidableEq

/-- `pub enum UserError {}` (uninhabited) -/
inductive UserError : Type
  deriving DecidableEq

/-- `User::new` -/
def User.new (name email : String) (organizationId : OrganizationId)
    (uoId : UserOrganizationId) : User :=
  { name := name, email := email, organizationId := organizationId, uoId := uoId }

/-- `impl Aggregate for User`, `fn apply_event` -/
def User.applyEvent (u : User) (e : UserEvent) : User :=
  match e with
  | .Renamed name => { u with name := name }
  | .EmailChanged email => { u with email := email }

/-- `impl Aggregate for User`, `fn handle_command` -/
def User.handleCommand (_u : User) (c : UserCommand) :
    Except UserError (List UserEvent) :=
  match c with
  | .Rename name => .ok [.Renamed name]
  | .ChangeEmail email => .ok [.EmailChanged email]

/-! ## Collection events and errors -/

inductive OrganizationCollectionEvent where
  | Created (id : OrganizationId) (data : String × Nat)
  | Aggregate (id : OrganizationId) (e : OrganizationEvent)
  | Deleted (id : OrganizationId)
  deriving DecidableEq

/-- `impl CollectionEvent for OrganizationCollectionEvent`, `fn aggregate_id` -/
def OrganizationCollectionEvent.aggregateId :
    OrganizationCollectionEvent → OrganizationId
  | .Created id _ => id
  | .Aggregate id _ => id
  | .Deleted id => id

inductive UserCollectionEvent where
  | Created (id : UserId)
      (data : String × String × OrganizationId × UserOrganizationId)
  | Aggregate (id : UserId) (e : UserEvent)
  | Deleted (id : UserId)
  deriving DecidableEq

/-- `impl CollectionEvent for UserCollectionEvent`, `fn aggregate_id` -/
def UserCollectionEvent.aggregateId : UserCollectionEvent → UserId
  | .Created id _ => id
  | .Aggregate id _ => id
  | .Deleted id => id

inductive OrganizationCollectionError where
  | NotFound (id : OrganizationId)
  | Origanization (e : OrganizationError)
  | Store (msg : String)
  | InvalidEvent (e : OrganizationCollectionEvent)
  deriving DecidableEq

inductive UserCollectionError where
  | NotFound (id : UserId)
  | User (e : UserError)
  | Store (msg : String)
  | InvalidEvent (e : UserCollectionEvent)
  deriving DecidableEq

/-! ## The on-memory event store (`OnMemoryEventStore`) -/

/-- `pub struct EventStoreError(pub String)` -/
structure EventStoreError where
  msg : String
  deriving DecidableEq

/-- Rendering of `format!("{:?}", e)` for `EventStoreError`, as used by the
collections to wrap store errors into their `Store(String)` variant. -/
def storeErrFmt (e : EventStoreError) : String :=
  "EventStoreError(\"" ++ e.msg ++ "\")"

/-- `pub struct OnMemoryEventStore`.  The broker field carries no state (its
`publish` prints), so it is omitted; `commit` returns the published batches
instead. -/
structure OnMemoryEventStore where
  orgEvents : List (OrganizationId × List OrganizationCollectionEvent)
  orgUncommittedEvents : List (OrganizationId × List OrganizationCollectionEvent)
  userEvents : List (UserId × List UserCollectionEvent)
  userUncommittedEvents : List (UserId × List UserCollectionEvent)
  inTransaction : Bool
  deriving DecidableEq

namespace OnMemoryEventStore

/-- `fn begin`: sets `in_transaction = true` and returns `Ok(())`
unconditionally. -/
def begin (s : OnMemoryEventStore) : Except EventStoreError OnMemoryEventStore :=
  .ok { s with inTransaction := true }

/-- `fn rollback`: sets `in_transaction = false` and returns `Ok(())`
unconditionally (it does not touch the uncommitted maps). -/
def rollback (s : OnMemoryEventStore) : OnMemoryEventStore :=
  { s with inTransaction := false }

/-- Result of `fn commit`: the new store plus the batches handed to the
broker's `publish`, one call per map entry. -/
structure CommitResult where
  store : OnMemoryEventStore
  orgPublished : List (OrganizationId × List OrganizationCollectionEvent)
  userPublished : List (UserId × List UserCollectionEvent)
  deriving DecidableEq

/-- `fn commit`: clones the uncommitted maps for publishing, drains them into
the durable logs, leaves the transaction, then publishes each id's batch.
The Rust function returns `Ok(())` unconditionally (the on-memory broker's
`publish` never fails), so no error case is modelled. -/
def commit (s : OnMemoryEventStore) : CommitResult :=
  let orgToPublish := s.orgUncommittedEvents
  let userToPublish := s.userUncommittedEvents
  { store :=
      { orgEvents := commitLogs s.orgEvents s.orgUncommittedEvents
        orgUncommittedEvents := []
        userEvents := commitLogs s.userEvents s.userUncommittedEvents
        userUncommittedEvents := []
        inTransaction := false }
    orgPublished := orgToPublish
    userPublished := userToPublish }

/-- `impl EventStore<OrganizationCollectionEvent>`, `fn save`: buffers each
event under its aggregate id when a transaction is active, else fails. -/
def saveOrg (s : OnMemoryEventStore) (events : List OrganizationCollectionEvent) :
    Except EventStoreError OnMemoryEventStore :=
  if s.inTransaction then
    .ok { s with
          orgUncommittedEvents :=
            bufferAll OrganizationCollectionEvent.aggregateId
              s.orgUncommittedEvents events }
  else
    .error ⟨"Not in transaction"⟩

/-- `impl EventStore<OrganizationCollectionEvent>`, `fn load`: the durable log
of the id (always `Ok` in the source). -/
def loadOrg (s : OnMemoryEventStore) (id : OrganizationId) :
    List OrganizationCollectionEvent :=
  alGetD s.orgEvents id

/-- `impl EventStore<UserCollectionEvent>`, `fn save`. -/
def saveUser (s : OnMemoryEventStore) (events : List UserCollectionEvent) :
    Except EventStoreError OnMemoryEventStore :=
  if s.inTransaction then
    .ok { s with
          userUncommittedEvents :=
            bufferAll UserCollectionEvent.aggregateId
              s.userUncommittedEvents events }
  else
    .error ⟨"Not in transaction"⟩

/-- `impl EventStore<UserCollectionEvent>`, `fn load`. -/
def loadUser (s : OnMemoryEventStore) (id : UserId) :
    List UserCollectionEvent :=
  alGetD s.userEvents id

end OnMemoryEventStore

/-! ## Collections -/

namespace OrganizationCollection

/-- `impl Collection for OrganizationCollection`, `fn create`: the id is the
organization's name; exactly one `Created` event is saved. -/
def create (data : String × Nat) (s : OnMemoryEventStore) :
    Except OrganizationCollectionError OrganizationId × OnMemoryEventStore :=
  let id : OrganizationId := ⟨data.1⟩
  match OnMemoryEventStore.saveOrg s [.Created id data] with
  | .ok s1 => (.ok id, s1)
  | .error e => (.error (.Store (storeErrFmt e)), s)

/-- The `for event in iter` replay loop of `fn find`: apply `Aggregate`
events, return `None` on a `Deleted` event, skip anything else. -/
def orgFoldRest (agg : Option Organization) :
    List OrganizationCollectionEvent → Option Organization
  | [] => agg
  | .Aggregate _ ev :: rest =>
      orgFoldRest (agg.map fun a => a.applyEvent ev) rest
  | .Deleted _ :: _ => none
  | .Created _ _ :: rest => orgFoldRest agg rest

/-- `impl Collection for OrganizationCollection`, `fn find`: empty log gives
`none`; a first event other than `Created` is an `InvalidEvent`; otherwise
the remainder is replayed from the created state. -/
def find (id : OrganizationId) (s : OnMemoryEventStore) :
    Except OrganizationCollectionError (Option Organization) :=
  match OnMemoryEventStore.loadOrg s id with
  | [] => .ok none
  | e :: rest =>
      match e with
      | .Created _ data =>
          .ok (orgFoldRest (some (Organization.new data.1 data.2)) rest)
      | _ => .error (.InvalidEvent e)

/-- `impl Collection for OrganizationCollection`, `fn handle_command`. -/
def handleCommand (id : OrganizationId) (cmd : OrganizationCommand)
    (s : OnMemoryEventStore) :
    Except OrganizationCollectionError String × OnMemoryEventStore :=
  match find id s with
  | .error e => (.error e, s)
  | .ok none => (.error (.NotFound id), s)
  | .ok (some agg) =>
      match agg.handleCommand cmd with
      | .error e => (.error (.Origanization e), s)
      | .ok events =>
          match OnMemoryEventStore.saveOrg s
              (events.map fun e => OrganizationCollectionEvent.Aggregate id e) with
          | .ok s1 => (.ok "Success", s1)
          | .error e => (.error (.Store (storeErrFmt e)), s)

end OrganizationCollection

/-- `pub struct UserCollection { pub length: usize }` -/
structure UserCollection where
  length : Nat
  deriving DecidableEq

namespace UserCollection

/-- `impl Collection for UserCollection`, `fn create`: increments the length
counter, derives the new id from it, then attempts the save. -/
def create (c : UserCollection)
    (data : String × String × OrganizationId × UserOrganizationId)
    (s : OnMemoryEventStore) :
    Except UserCollectionError UserId × UserCollection × OnMemoryEventStore :=
  let c1 : UserCollection := { length := c.length + 1 }
  let id : UserId := ⟨c1.length⟩
  match OnMemoryEventStore.saveUser s [.Created id data] with
  | .ok s1 => (.ok id, c1, s1)
  | .error e => (.error (.Store (storeErrFmt e)), c1, s)

end UserCollection

/-! ## The user-add saga (`fn user_add_usecase`) -/

/-- The saga's error value.  The Rust function renders every error into a
`String` with `format!("{:?}", e)`; the model keeps the error value itself,
which carries strictly more information and the same ok/error distinction. -/
inductive SagaError where
  | Org (e : OrganizationCollectionError)
  | User (e : UserCollectionError)
  | Store (e : EventStoreError)
  deriving DecidableEq

/-- `pub fn user_add_usecase`: one `begin`, then reserve (step 1), create the
user (step 2), add the user (step 3), and a single final `commit`; every
error path calls `rollback` and returns the error. -/
def user_add_usecase (name email : String) (orgId : OrganizationId)
    (uc : UserCollection) (store : OnMemoryEventStore) :
    Except SagaError Unit × UserCollection × OnMemoryEventStore :=
  match OnMemoryEventStore.begin store with
  | .error e => (.error (.Store e), uc, store)
  | .ok s1 =>
      match OrganizationCollection.handleCommand orgId
          (.UserReserve name) s1 with
      | (.error e, sx) => (.error (.Org e), uc, OnMemoryEventStore.rollback sx)
      | (.ok _, s2) =>
          let uoId : UserOrganizationId := ⟨orgId.str ++ "-" ++ name⟩
          match UserCollection.create uc (name, email, orgId, uoId) s2 with
          | (.error e, uc1, sx) =>
              (.error (.User e), uc1, OnMemoryEventStore.rollback sx)
          | (.ok userId, uc1, s3) =>
              match OrganizationCollection.handleCommand orgId
                  (.AddUser userId uoId) s3 with
              | (.error e, sx) =>
                  (.error (.Org e), uc1, OnMemoryEventStore.rollback sx)
              | (.ok _, s4) =>
                  (.ok (), uc1, (OnMemoryEventStore.commit s4).store)

/-! ## Backlog (`src/backlog.rs`, test instance `Order`) -/

structure OrderId where
  str : String
  deriving DecidableEq

inductive OrderStatus where
  | Pending
  | Shipped
  | Delivered
  deriving DecidableEq

structure Order where
  id : OrderId
  status : OrderStatus
  deriving DecidableEq

structure CreateOrderEvent where
  id : OrderId
  deriving DecidableEq

inductive OrderAction where
  | Ship
  | Deliver
  deriving DecidableEq

structure OrderResolveData where
  action : OrderAction
  deriving DecidableEq

structure OrderResolveEvent where
  id : OrderId
  data : OrderResolveData
  deriving DecidableEq

/-- `impl Backlog for Order`, `fn create`: initial status is `Pending`. -/
def Order.create (e : CreateOrderEvent) : Order :=
  { id := e.id, status := .Pending }

/-- `impl Backlog for Order`, `fn resolve`: overwrites the status with the
stage named by the event's action, regardless of the current status. -/
def Order.resolve (o : Order) (e : OrderResolveEvent) : Order :=
  { o with
    status :=
      match e.data.action with
      | .Ship => .Shipped
      | .Deliver => .Delivered }

/-- Position of a status in the declaration order of the Rust enum
(`Pending`, `Shipped`, `Delivered`), the canonical stage numbering. -/
def OrderStatus.stage : OrderStatus → Nat
  | .Pending => 0
  | .Shipped => 1
  | .Delivered => 2

/-- The canonical resolve order exercised by the source's test:
first `Ship`, then `Deliver`. -/
def canonicalActions : List OrderAction := [.Ship, .Deliver]

/-- Fold a sequence of resolve actions over an order. -/
def resolveSeq (o : Order) (acts : List OrderAction) : Order :=
  acts.foldl (fun acc a => acc.resolve { id := acc.id, data := { action := a } }) o

/-! ## Derived notions used in the statements -/

/-- The aggregate-level payloads of the `Aggregate`-variant entries of a log
segment, in order: the events that the replay loop hands to `apply_event`. -/
def aggPayloads (events : List OrganizationCollectionEvent) :
    List OrganizationEvent :=
  events.filterMap fun e =>
    match e with
    | .Aggregate _ ev => some ev
    | _ => none

/-! ## Concrete stores and runs used by witnesses and counterexamples -/

def emptyStore : OnMemoryEventStore :=
  { orgEvents := [], orgUncommittedEvents := [], userEvents := [],
    userUncommittedEvents := [], inTransaction := false }

def orgA : OrganizationId := ⟨"A"⟩

def orgB : OrganizationId := ⟨"B"⟩

def userOne : UserId := ⟨1⟩

/-- The store after `begin(); save([Created(A, ("A", 3))]); rollback()` on an
initially empty store. -/
def rollbackScenario : OnMemoryEventStore :=
  match OnMemoryEventStore.begin emptyStore with
  | .ok s1 =>
      match OnMemoryEventStore.saveOrg s1 [.Created orgA ("A", 3)] with
      | .ok s2 => OnMemoryEventStore.rollback s2
      | .error _ => s1
  | .error _ => emptyStore

/-- A later `begin(); commit()` pair run after the rolled-back transaction,
with nothing saved in between. -/
def laterCommit : OnMemoryEventStore.CommitResult :=
  match OnMemoryEventStore.begin rollbackScenario with
  | .ok s => OnMemoryEventStore.commit s
  | .error _ => OnMemoryEventStore.commit rollbackScenario

/-- An idle store holding one committed organization with `max_users = 0`,
so that the saga's step 3 (`AddUser`) must fail. -/
def fullOrgStore : OnMemoryEventStore :=
  { orgEvents := [(orgB, [.Created orgB ("B", 0)])]
    orgUncommittedEvents := []
    userEvents := []
    userUncommittedEvents := []
    inTransaction := false }

/-- A saga run whose step 3 fails with `MaxUsersReached`. -/
def sagaFailRun : Except SagaError Unit × UserCollection × OnMemoryEventStore :=
  user_add_usecase "Alice" "alice@example.com" orgB { length := 0 } fullOrgStore

/-- A store that is already inside an Active transaction. -/
def activeStore : OnMemoryEventStore :=
  { emptyStore with inTransaction := true }

/-- A durable log whose very first event is `Deleted`. -/
def deletedFirstStore : OnMemoryEventStore :=
  { emptyStore with orgEvents := [(orgA, [.Deleted orgA])] }

/-- A durable log with a `Deleted` tombstone in the middle: `Created`, a
rename, `Deleted`, then a further rename after the tombstone. -/
def tombstoneStore : OnMemoryEventStore :=
  { emptyStore with
    orgEvents := [(orgA,
      [.Created orgA ("A", 3), .Aggregate orgA (.Renamed "A2"),
       .Deleted orgA, .Aggregate orgA (.Renamed "A3")])] }

/-- An active transaction buffering events for two organizations and one
user on top of one committed organization log. -/
def bufferedStore : OnMemoryEventStore :=
  { orgEvents := [(orgA, [.Created orgA ("A", 3)])]
    orgUncommittedEvents :=
      [(orgA, [.Aggregate orgA (.Renamed "A2")]),
       (orgB, [.Created orgB ("B", 1)])]
    userEvents := []
    userUncommittedEvents :=
      [(userOne, [.Created userOne ("U", "u", orgA, ⟨"A-U"⟩)])]
    inTransaction := true }

/-- An idle store with a purely `Created` + `Aggregate` organization log. -/
def replayStore : OnMemoryEventStore :=
  { emptyStore with
    orgEvents := [(orgA,
      [.Created orgA ("A", 3), .Aggregate orgA (.Renamed "A2"),
       .Aggregate orgA (.UserAdded userOne ⟨"A-U"⟩)])] }

/-- `replayStore` inside an Active transaction. -/
def activeReplayStore : OnMemoryEventStore :=
  { replayStore with inTransaction := true }

/-- The backlog order after the canonical `Ship`, `Deliver` sequence. -/
def orderDelivered : Order :=
  resolveSeq (Order.create { id := ⟨"order-1"⟩ }) canonicalActions

/-- `bufferedStore` with its buffers emptied and the transaction closed:
same durable logs, different transient state. -/
def strippedBufferedStore : OnMemoryEventStore :=
  { orgEvents := [(orgA, [.Created orgA ("A", 3)])]
    orgUncommittedEvents := []
    userEvents := []
    userUncommittedEvents := []
    inTransaction := false }

/-- The store produced by one further successful `save` on `bufferedStore`. -/
def savedBufferedStore : OnMemoryEventStore :=
  match OnMemoryEventStore.saveOrg bufferedStore
      [.Aggregate orgA (.Renamed "A3")] with
  | .ok s1 => s1
  | .error _ => bufferedStore

/-- Sample creation data for a user. -/
def dataEx : String × String × OrganizationId × UserOrganizationId :=
  ("D", "d", orgA, ⟨"A-D"⟩)

/-! ## Lemmas about the association-list operations -/

section AListLemmas

variable {k v : Type} [DecidableEq k]

theorem alGetD_alPush_same (m : List (k × List v)) (key : k) (e : v) :
    alGetD (alPush m key e) key = alGetD m key ++ [e] := by
  induction m with
  | nil => simp [alPush, alGetD]
  | cons p rest ih =>
      obtain ⟨a, b⟩ := p
      by_cases h : a = key
      · simp [alPush, alGetD, h]
      · simp [alPush, alGetD, h, ih]

theorem alGetD_alPush_ne (m : List (k × List v)) (key key2 : k) (e : v)
    (hne : key ≠ key2) :
    alGetD (alPush m key e) key2 = alGetD m key2 := by
  induction m with
  | nil => simp [alPush, alGetD, hne]
  | cons p rest ih =>
      obtain ⟨a, b⟩ := p
      by_cases h : a = key
      · subst h
        simp [alPush, alGetD, hne]
      · by_cases h2 : a = key2
        · subst h2
          simp [alPush, alGetD, h, Ne.symm hne]
        · simp [alPush, alGetD, h, h2, ih]

theorem alGetD_alExtend_same (m : List (k × List v)) (key : k) (es : List v) :
    alGetD (alExtend m key es) key = alGetD m key ++ es := by
  induction m with
  | nil => simp [alExtend, alGetD]
  | cons p rest ih =>
      obtain ⟨a, b⟩ := p
      by_cases h : a = key
      · simp [alExtend, alGetD, h]
      · simp [alExtend, alGetD, h, ih]

theorem alGetD_alExtend_ne (m : List (k × List v)) (key key2 : k) (es : List v)
    (hne : key ≠ key2) :
    alGetD (alExtend m key es) key2 = alGetD m key2 := by
  induction m with
  | nil => simp [alExtend, alGetD, hne]
  | cons p rest ih =>
      obtain ⟨a, b⟩ := p
      by_cases h : a = key
      · subst h
        simp [alExtend, alGetD, hne]
      · by_cases h2 : a = key2
        · subst h2
          simp [alExtend, alGetD, h, Ne.symm hne]
        · simp [alExtend, alGetD, h, h2, ih]

theorem alGetD_eq_nil_of_not_mem (m : List (k × List v)) (key : k)
    (h : key ∉ m.map Prod.fst) : alGetD m key = [] := by
  induction m with
  | nil => rfl
  | cons p rest ih =>
      simp only [List.map_cons, List.mem_cons] at h
      push_neg at h
      have hne : p.1 ≠ key := fun hk => h.1 hk.symm
      obtain ⟨a, b⟩ := p
      simp only [alGetD]
      rw [if_neg hne]
      exact ih h.2

theorem alGetD_of_mem_nodup (m : List (k × List v)) (key : k) (es : List v)
    (hnd : (m.map Prod.fst).Nodup) (hmem : (key, es) ∈ m) :
    alGetD m key = es := by
  induction m with
  | nil => simp at hmem
  | cons p rest ih =>
      simp only [List.map_cons, List.nodup_cons] at hnd
      rcases List.mem_cons.mp hmem with hhead | htail
      · obtain ⟨a, b⟩ := p
        obtain ⟨h1, h2⟩ := Prod.mk.injEq .. |>.mp hhead.symm
        subst h1
        subst h2
        simp [alGetD]
      · obtain ⟨a, b⟩ := p
        have hne : a ≠ key := by
          intro hk
          subst hk
          exact hnd.1 (List.mem_map.mpr ⟨(a, es), htail, rfl⟩)
        simp only [alGetD]
        rw [if_neg hne]
        exact ih hnd.2 htail

theorem alGetD_bufferAll (f : v → k) (events : List v)
    (m : List (k × List v)) (key : k) :
    alGetD (bufferAll f m events) key =
      alGetD m key ++ events.filter fun e => decide (f e = key) := by
  induction events generalizing m with
  | nil => simp [bufferAll]
  | cons e rest ih =>
      simp only [bufferAll, List.foldl_cons] at ih ⊢
      rw [ih]
      by_cases h : f e = key
      · rw [h, alGetD_alPush_same]
        simp [List.filter_cons, h, List.append_assoc]
      · rw [alGetD_alPush_ne _ _ _ _ h]
        simp [List.filter_cons, h]

theorem alGetD_commitLogs (uncommitted durable : List (k × List v)) (key : k)
    (hnd : (uncommitted.map Prod.fst).Nodup) :
    alGetD (commitLogs durable uncommitted) key =
      alGetD durable key ++ alGetD uncommitted key := by
  induction uncommitted generalizing durable with
  | nil => simp [commitLogs, alGetD]
  | cons p rest ih =>
      obtain ⟨a, es⟩ := p
      simp only [List.map_cons, List.nodup_cons] at hnd
      simp only [commitLogs, List.foldl_cons] at ih ⊢
      rw [ih _ hnd.2]
      by_cases h : a = key
      · subst h
        rw [alGetD_alExtend_same, alGetD_eq_nil_of_not_mem rest a hnd.1]
        simp [alGetD]
      · rw [alGetD_alExtend_ne _ _ _ _ h]
        simp [alGetD, h]

end AListLemmas

/-! ## Lemmas about the replay loop -/

theorem orgFoldRest_none_of_mem_deleted (rest : List OrganizationCollectionEvent)
    (agg : Option Organization) (d : OrganizationId)
    (h : OrganizationCollectionEvent.Deleted d ∈ rest) :
    OrganizationCollection.orgFoldRest agg rest = none := by
  induction rest generalizing agg with
  | nil => simp at h
  | cons e tail ih =>
      match e with
      | .Aggregate id ev =>
          rw [OrganizationCollection.orgFoldRest]
          exact ih _ (by simpa using h)
      | .Deleted id =>
          rw [OrganizationCollection.orgFoldRest]
      | .Created id data =>
          rw [OrganizationCollection.orgFoldRest]
          exact ih _ (by simpa using h)

theorem orgFoldRest_eq_foldl (rest : List OrganizationCollectionEvent)
    (a : Organization)
    (h : ∀ d, OrganizationCollectionEvent.Deleted d ∉ rest) :
    OrganizationCollection.orgFoldRest (some a) rest =
      some (List.foldl Organization.applyEvent a (aggPayloads rest)) := by
  induction rest generalizing a with
  | nil => simp [OrganizationCollection.orgFoldRest, aggPayloads]
  | cons e tail ih =>
      have htail : ∀ d, OrganizationCollectionEvent.Deleted d ∉ tail := by
        intro d hd
        exact h d (List.mem_cons_of_mem _ hd)
      match e with
      | .Aggregate id ev =>
          rw [OrganizationCollection.orgFoldRest]
          show OrganizationCollection.orgFoldRest (some (a.applyEvent ev)) tail = _
          rw [ih _ htail]
          simp [aggPayloads]
      | .Deleted id =>
          exact absurd (List.mem_cons_self _ _) (h id)
      | .Created id data =>
          rw [OrganizationCollection.orgFoldRest]
          rw [ih _ htail]
          simp [aggPayloads]

/-! ## Field-preservation lemmas for the store operations -/

theorem saveOrg_ok_fields (s s1 : OnMemoryEventStore)
    (events : List OrganizationCollectionEvent)
    (h : OnMemoryEventStore.saveOrg s events = .ok s1) :
    s1.orgEvents = s.orgEvents ∧ s1.userEvents = s.userEvents
      ∧ s1.userUncommittedEvents = s.userUncommittedEvents
      ∧ s1.inTransaction = s.inTransaction := by
  unfold OnMemoryEventStore.saveOrg at h
  split at h
  · injection h with h
    subst h
    exact ⟨rfl, rfl, rfl, rfl⟩
  · exact Except.noConfusion h

theorem saveUser_ok_fields (s s1 : OnMemoryEventStore)
    (events : List UserCollectionEvent)
    (h : OnMemoryEventStore.saveUser s events = .ok s1) :
    s1.orgEvents = s.orgEvents ∧ s1.userEvents = s.userEvents
      ∧ s1.orgUncommittedEvents = s.orgUncommittedEvents
      ∧ s1.inTransaction = s.inTransaction := by
  unfold OnMemoryEventStore.saveUser at h
  split at h
  · injection h with h
    subst h
    exact ⟨rfl, rfl, rfl, rfl⟩
  · exact Except.noConfusion h

theorem handleCommand_snd_fields (id : OrganizationId)
    (cmd : OrganizationCommand) (s : OnMemoryEventStore) :
    (OrganizationCollection.handleCommand id cmd s).2.orgEvents = s.orgEvents
    ∧ (OrganizationCollection.handleCommand id cmd s).2.userEvents = s.userEvents
    ∧ (OrganizationCollection.handleCommand id cmd s).2.userUncommittedEvents
        = s.userUncommittedEvents
    ∧ (OrganizationCollection.handleCommand id cmd s).2.inTransaction
        = s.inTransaction := by
  unfold OrganizationCollection.handleCommand
  split
  · exact ⟨rfl, rfl, rfl, rfl⟩
  · exact ⟨rfl, rfl, rfl, rfl⟩
  · split
    · exact ⟨rfl, rfl, rfl, rfl⟩
    · split
      · next s1 heq => exact saveOrg_ok_fields _ _ _ heq
      · exact ⟨rfl, rfl, rfl, rfl⟩

theorem userCreate_store_fields (c : UserCollection)
    (data : String × String × OrganizationId × UserOrganizationId)
    (s : OnMemoryEventStore) :
    (UserCollection.create c data s).2.2.orgEvents = s.orgEvents
    ∧ (UserCollection.create c data s).2.2.userEvents = s.userEvents
    ∧ (UserCollection.create c data s).2.2.orgUncommittedEvents
        = s.orgUncommittedEvents
    ∧ (UserCollection.create c data s).2.2.inTransaction = s.inTransaction := by
  simp only [UserCollection.create]
  split
  · next s1 heq => exact saveUser_ok_fields _ _ _ heq
  · exact ⟨rfl, rfl, rfl, rfl⟩

theorem filter_tagged_same (id : OrganizationId)
    (events : List OrganizationEvent) :
    ((events.map fun e => OrganizationCollectionEvent.Aggregate id e).filter
        fun e => decide (e.aggregateId = id))
      = events.map fun e => OrganizationCollectionEvent.Aggregate id e := by
  induction events with
  | nil => rfl
  | cons e rest ih =>
      simp only [List.map_cons, List.filter_cons]
      simp [OrganizationCollectionEvent.aggregateId, ih]

theorem filter_tagged_ne (id id2 : OrganizationId)
    (events : List OrganizationEvent) (h : id2 ≠ id) :
    ((events.map fun e => OrganizationCollectionEvent.Aggregate id e).filter
        fun e => decide (e.aggregateId = id2)) = [] := by
  induction events with
  | nil => rfl
  | cons e rest ih =>
      simp only [List.map_cons, List.filter_cons]
      simp [OrganizationCollectionEvent.aggregateId, Ne.symm h, ih]

/-! ## Claims -/

/-- C1: the claim says `rollback()` discards all events buffered by `save()`
since `begin()`, so that a later transaction's `commit()` persists none of
them.  The code (`OnMemoryEventStore::rollback`) only resets the
`in_transaction` flag and leaves the uncommitted maps intact: after
`begin(); save([Created(A)]); rollback()`, the store is Idle and the durable
log is untouched (those parts hold), but the buffered event is still in the
uncommitted map, and a later bare `begin(); commit()` appends it to the
durable log for `A` and publishes it. -/
theorem c1_rollback_keeps_buffer :
    rollbackScenario.inTransaction = false
    ∧ rollbackScenario.orgEvents = []
    ∧ rollbackScenario.orgUncommittedEvents = [(orgA, [.Created orgA ("A", 3)])]
    ∧ OnMemoryEventStore.loadOrg laterCommit.store orgA = [.Created orgA ("A", 3)]
    ∧ laterCommit.orgPublished = [(orgA, [.Created orgA ("A", 3)])] := by
  decide

/-- C2 counterexample: a saga run against an organization with
`max_users = 0` fails at step 3 (`AddUser` returns `MaxUsersReached`), and
afterwards the durable organization log still holds only its `Created`
event: step 1's `UserReserved` reservation is NOT durably committed
(the whole saga ran inside one transaction that was rolled back), and no
durable user events exist either. -/
theorem c2_reservation_not_durable :
    sagaFailRun.1 = .error (.Org (.Origanization .MaxUsersReached))
    ∧ OnMemoryEventStore.loadOrg sagaFailRun.2.2 orgB = [.Created orgB ("B", 0)]
    ∧ sagaFailRun.2.2.orgEvents = fullOrgStore.orgEvents
    ∧ sagaFailRun.2.2.userEvents = [] := by
  decide

/-- C2 (amended): the three saga steps all run inside a single transaction
with one `commit()` at the end; a failure at any step makes the saga call
`rollback()` and return the error, so at that point step 1's reservation is
not durably committed and no durable events have been produced for any of
the three steps: the durable logs of the returned store equal those of the
input store, and the store is Idle. -/
theorem c2_saga_failure_leaves_durable_untouched (name email : String)
    (orgId : OrganizationId) (uc uc1 : UserCollection)
    (s s1 : OnMemoryEventStore) (err : SagaError)
    (h : user_add_usecase name email orgId uc s = (.error err, uc1, s1)) :
    s1.orgEvents = s.orgEvents
    ∧ s1.userEvents = s.userEvents
    ∧ s1.inTransaction = false := by
  simp only [user_add_usecase, OnMemoryEventStore.begin] at h
  split at h
  · next e sx heq =>
      simp only [Prod.mk.injEq] at h
      obtain ⟨h1, h2, h3⟩ := h
      subst h3
      obtain ⟨f1, f2, f3, f4⟩ := handleCommand_snd_fields orgId
        (OrganizationCommand.UserReserve name) { s with inTransaction := true }
      rw [heq] at f1 f2
      exact ⟨f1, f2, rfl⟩
  · next r1 s2 heq =>
      split at h
      · next e uc1x sx heq2 =>
          simp only [Prod.mk.injEq] at h
          obtain ⟨h1, h2, h3⟩ := h
          subst h3
          obtain ⟨f1, f2, f3, f4⟩ := handleCommand_snd_fields orgId
            (OrganizationCommand.UserReserve name) { s with inTransaction := true }
          rw [heq] at f1 f2
          obtain ⟨g1, g2, g3, g4⟩ := userCreate_store_fields uc
            (name, email, orgId, ⟨orgId.str ++ "-" ++ name⟩) s2
          rw [heq2] at g1 g2
          exact ⟨g1.trans f1, g2.trans f2, rfl⟩
      · next userId uc1x s3 heq2 =>
          split at h
          · next e sx heq3 =>
              simp only [Prod.mk.injEq] at h
              obtain ⟨h1, h2, h3⟩ := h
              subst h3
              obtain ⟨f1, f2, f3, f4⟩ := handleCommand_snd_fields orgId
                (OrganizationCommand.UserReserve name)
                { s with inTransaction := true }
              rw [heq] at f1 f2
              obtain ⟨g1, g2, g3, g4⟩ := userCreate_store_fields uc
                (name, email, orgId, ⟨orgId.str ++ "-" ++ name⟩) s2
              rw [heq2] at g1 g2
              obtain ⟨k1, k2, k3, k4⟩ := handleCommand_snd_fields orgId
                (OrganizationCommand.AddUser userId ⟨orgId.str ++ "-" ++ name⟩) s3
              rw [heq3] at k1 k2
              exact ⟨(k1.trans g1).trans f1, (k2.trans g2).trans f2, rfl⟩
          · simp at h

/-- C2 witness for the amended theorem, at the failing concrete saga run. -/
theorem c2_saga_failure_witness :
    sagaFailRun.2.2.orgEvents = fullOrgStore.orgEvents
    ∧ sagaFailRun.2.2.userEvents = fullOrgStore.userEvents
    ∧ sagaFailRun.2.2.inTransaction = false :=
  c2_saga_failure_leaves_durable_untouched "Alice" "alice@example.com" orgB
    { length := 0 } sagaFailRun.2.1 fullOrgStore sagaFailRun.2.2
    (.Org (.Origanization .MaxUsersReached)) (by decide)

/-- C3 counterexample: calling `begin()` while a transaction is already
Active does not fail; it returns `Ok` (with the store unchanged, the flag
being already set). -/
theorem c3_begin_active_succeeds :
    activeStore.inTransaction = true
    ∧ OnMemoryEventStore.begin activeStore = .ok activeStore := by
  decide

/-- C3 (amended): `begin()` never fails.  From any state, including one
whose transaction is already Active, it returns `Ok`, sets the state to
Active, and leaves every log and buffer untouched; there is no
nested-transaction detection. -/
theorem c3_begin_always_ok (s s1 : OnMemoryEventStore)
    (h : OnMemoryEventStore.begin s = .ok s1) :
    s1.inTransaction = true
    ∧ s1.orgEvents = s.orgEvents
    ∧ s1.userEvents = s.userEvents
    ∧ s1.orgUncommittedEvents = s.orgUncommittedEvents
    ∧ s1.userUncommittedEvents = s.userUncommittedEvents
    ∧ ∀ t : OnMemoryEventStore, ∃ t1, OnMemoryEventStore.begin t = .ok t1 := by
  unfold OnMemoryEventStore.begin at h
  injection h with h
  subst h
  exact ⟨rfl, rfl, rfl, rfl, rfl, fun t => ⟨_, rfl⟩⟩

/-- C3 witness for the amended theorem, at a store that is already Active. -/
theorem c3_begin_always_ok_witness :
    OnMemoryEventStore.begin activeStore = .ok activeStore
    ∧ activeStore.inTransaction = true :=
  ⟨by decide, (c3_begin_always_ok activeStore activeStore (by decide)).1⟩

/-- C4 counterexample: a log whose `Deleted` event sits at position `k = 0`
makes `find()` return an `InvalidEvent` error, not none, because the first
event of a non-empty log must be `Created`. -/
theorem c4_deleted_first_is_invalid :
    OnMemoryEventStore.loadOrg deletedFirstStore orgA = [.Deleted orgA]
    ∧ OrganizationCollection.find orgA deletedFirstStore
        = .error (.InvalidEvent (.Deleted orgA))
    ∧ OrganizationCollection.find orgA deletedFirstStore ≠ .ok none := by
  decide

/-- C4 (amended): for every log whose first event is a `Created` variant, a
`Deleted` event at any later position makes `find()` return none,
irrespective of the events occurring after it; a log whose first event is
not `Created` (in particular one starting with `Deleted`) instead yields an
`InvalidEvent` error. -/
theorem c4_tombstone_visibility (s : OnMemoryEventStore)
    (id cid : OrganizationId) (data : String × Nat)
    (rest : List OrganizationCollectionEvent) (d : OrganizationId)
    (hlog : OnMemoryEventStore.loadOrg s id
        = OrganizationCollectionEvent.Created cid data :: rest)
    (hdel : OrganizationCollectionEvent.Deleted d ∈ rest) :
    OrganizationCollection.find id s = .ok none := by
  unfold OrganizationCollection.find
  rw [hlog]
  show Except.ok (OrganizationCollection.orgFoldRest
      (some (Organization.new data.1 data.2)) rest) = .ok none
  rw [orgFoldRest_none_of_mem_deleted rest _ d hdel]

/-- C4 witness: tombstone in the middle of a log, with a further event
after it. -/
theorem c4_tombstone_visibility_witness :
    OnMemoryEventStore.loadOrg tombstoneStore orgA
      = [.Created orgA ("A", 3), .Aggregate orgA (.Renamed "A2"),
         .Deleted orgA, .Aggregate orgA (.Renamed "A3")]
    ∧ OrganizationCollection.find orgA tombstoneStore = .ok none :=
  ⟨by decide,
   c4_tombstone_visibility tombstoneStore orgA orgA ("A", 3)
     [.Aggregate orgA (.Renamed "A2"), .Deleted orgA,
      .Aggregate orgA (.Renamed "A3")] orgA (by decide) (by decide)⟩

/-- C9 counterexample: `Order::resolve` overwrites the status with the stage
named by the event alone, so resolving with `Ship` after the order is
already `Delivered` moves the status back to the earlier `Shipped` stage. -/
theorem c9_resolve_regresses :
    orderDelivered.status = OrderStatus.Delivered
    ∧ (orderDelivered.resolve
        { id := orderDelivered.id, data := { action := .Ship } }).status
        = OrderStatus.Shipped
    ∧ (orderDelivered.resolve
        { id := orderDelivered.id, data := { action := .Ship } }).status.stage
        < orderDelivered.status.stage := by
  decide

/-- C9 (amended): after `n` resolve() calls in the canonical order (`Ship`,
then `Deliver`), `status()` equals the `n`-th defined stage; but transitions
are not strictly forward, since `resolve` sets the status purely from the
event's action, and an out-of-order resolve (e.g. `Ship` after `Delivered`)
regresses the status to an earlier stage. -/
theorem c9_canonical_monotone (oid : OrderId) (n : Nat) (hn : n ≤ 2) :
    (resolveSeq (Order.create { id := oid })
        (canonicalActions.take n)).status.stage = n := by
  interval_cases n <;> rfl

/-- C9 witness: the full canonical sequence reaches stage 2 (`Delivered`). -/
theorem c9_canonical_monotone_witness :
    (2 : Nat) ≤ 2
    ∧ (resolveSeq (Order.create { id := ⟨"order-1"⟩ })
        (canonicalActions.take 2)).status.stage = 2 :=
  ⟨by decide, c9_canonical_monotone ⟨"order-1"⟩ 2 (by decide)⟩

/-- C5: for every store in an Active transaction whose buffers came from
`save` (duplicate-free keys), `commit()` appends, for every id, exactly the
buffered events in buffering order to that id's durable log, hands the
broker one batch per touched id holding exactly that id's buffered events
(the published batches are computed from the pre-commit buffers while the
returned state already has the logs updated, matching the code's
logs-then-publish order), clears both buffers, and returns the store to
Idle. -/
theorem c5_commit_appends_and_publishes (s : OnMemoryEventStore)
    (_hActive : s.inTransaction = true)
    (hOrg : (s.orgUncommittedEvents.map Prod.fst).Nodup)
    (hUser : (s.userUncommittedEvents.map Prod.fst).Nodup) :
    (∀ id, OnMemoryEventStore.loadOrg (OnMemoryEventStore.commit s).store id
        = OnMemoryEventStore.loadOrg s id ++ alGetD s.orgUncommittedEvents id)
    ∧ (∀ id, OnMemoryEventStore.loadUser (OnMemoryEventStore.commit s).store id
        = OnMemoryEventStore.loadUser s id ++ alGetD s.userUncommittedEvents id)
    ∧ (OnMemoryEventStore.commit s).store.orgUncommittedEvents = []
    ∧ (OnMemoryEventStore.commit s).store.userUncommittedEvents = []
    ∧ (OnMemoryEventStore.commit s).store.inTransaction = false
    ∧ (OnMemoryEventStore.commit s).orgPublished = s.orgUncommittedEvents
    ∧ (OnMemoryEventStore.commit s).userPublished = s.userUncommittedEvents
    ∧ ((OnMemoryEventStore.commit s).orgPublished.map Prod.fst).Nodup
    ∧ (∀ p ∈ (OnMemoryEventStore.commit s).orgPublished,
        p.2 = alGetD s.orgUncommittedEvents p.1)
    ∧ ((OnMemoryEventStore.commit s).userPublished.map Prod.fst).Nodup
    ∧ (∀ p ∈ (OnMemoryEventStore.commit s).userPublished,
        p.2 = alGetD s.userUncommittedEvents p.1) := by
  refine ⟨?_, ?_, rfl, rfl, rfl, rfl, rfl, hOrg, ?_, hUser, ?_⟩
  · intro id
    exact alGetD_commitLogs s.orgUncommittedEvents s.orgEvents id hOrg
  · intro id
    exact alGetD_commitLogs s.userUncommittedEvents s.userEvents id hUser
  · intro p hp
    obtain ⟨a, b⟩ := p
    exact (alGetD_of_mem_nodup _ _ _ hOrg hp).symm
  · intro p hp
    obtain ⟨a, b⟩ := p
    exact (alGetD_of_mem_nodup _ _ _ hUser hp).symm

/-- C5 witness, committing a transaction that buffered events for two
organizations and one user. -/
theorem c5_commit_witness :
    bufferedStore.inTransaction = true
    ∧ OnMemoryEventStore.loadOrg
        (OnMemoryEventStore.commit bufferedStore).store orgA
        = OnMemoryEventStore.loadOrg bufferedStore orgA
          ++ alGetD bufferedStore.orgUncommittedEvents orgA
    ∧ (OnMemoryEventStore.commit bufferedStore).store.inTransaction = false
    ∧ (OnMemoryEventStore.commit bufferedStore).orgPublished
        = bufferedStore.orgUncommittedEvents :=
  ⟨rfl,
   (c5_commit_appends_and_publishes bufferedStore rfl (by decide)
      (by decide)).1 orgA,
   (c5_commit_appends_and_publishes bufferedStore rfl (by decide)
      (by decide)).2.2.2.2.1,
   (c5_commit_appends_and_publishes bufferedStore rfl (by decide)
      (by decide)).2.2.2.2.2.1⟩

/-- C6: `load(id)` depends only on the durable logs, so buffered events are
never visible to it (and hence to any Collection query); `save` outside an
Active transaction fails with the not-in-transaction error; a successful
`save` leaves every durable log (and everything `load` returns) unchanged
and only appends the saved events, keyed per id, to the transaction
buffer. -/
theorem c6_load_durable_save_buffers (s : OnMemoryEventStore)
    (id : OrganizationId) (events : List OrganizationCollectionEvent) :
    (∀ t : OnMemoryEventStore, s.orgEvents = t.orgEvents →
        OnMemoryEventStore.loadOrg s id = OnMemoryEventStore.loadOrg t id)
    ∧ (s.inTransaction = false →
        OnMemoryEventStore.saveOrg s events = .error ⟨"Not in transaction"⟩)
    ∧ (∀ s1, OnMemoryEventStore.saveOrg s events = .ok s1 →
        s1.orgEvents = s.orgEvents
        ∧ s1.userEvents = s.userEvents
        ∧ (∀ id2, OnMemoryEventStore.loadOrg s1 id2
            = OnMemoryEventStore.loadOrg s id2)
        ∧ alGetD s1.orgUncommittedEvents id
            = alGetD s.orgUncommittedEvents id
              ++ events.filter fun e => decide (e.aggregateId = id)) := by
  refine ⟨?_, ?_, ?_⟩
  · intro t h
    unfold OnMemoryEventStore.loadOrg
    rw [h]
  · intro h
    simp [OnMemoryEventStore.saveOrg, h]
  · intro s1 hs1
    unfold OnMemoryEventStore.saveOrg at hs1
    split at hs1
    · injection hs1 with hs1
      subst hs1
      exact ⟨rfl, rfl, fun id2 => rfl,
        alGetD_bufferAll OrganizationCollectionEvent.aggregateId events
          s.orgUncommittedEvents id⟩
    · exact Except.noConfusion hs1

/-- C6 witness: a load that ignores the buffers, a failing save on an Idle
store, and a successful save on an Active one. -/
theorem c6_load_durable_save_buffers_witness :
    OnMemoryEventStore.loadOrg bufferedStore orgA
      = OnMemoryEventStore.loadOrg strippedBufferedStore orgA
    ∧ OnMemoryEventStore.saveOrg strippedBufferedStore
        [.Aggregate orgA (.Renamed "A3")] = .error ⟨"Not in transaction"⟩
    ∧ (savedBufferedStore.orgEvents = bufferedStore.orgEvents
        ∧ savedBufferedStore.userEvents = bufferedStore.userEvents
        ∧ (∀ id2, OnMemoryEventStore.loadOrg savedBufferedStore id2
            = OnMemoryEventStore.loadOrg bufferedStore id2)
        ∧ alGetD savedBufferedStore.orgUncommittedEvents orgA
            = alGetD bufferedStore.orgUncommittedEvents orgA
              ++ [OrganizationCollectionEvent.Aggregate orgA
                    (.Renamed "A3")].filter
                  fun e => decide (e.aggregateId = orgA)) :=
  ⟨(c6_load_durable_save_buffers bufferedStore orgA []).1
      strippedBufferedStore (by decide),
   (c6_load_durable_save_buffers strippedBufferedStore orgA
      [.Aggregate orgA (.Renamed "A3")]).2.1 rfl,
   (c6_load_durable_save_buffers bufferedStore orgA
      [.Aggregate orgA (.Renamed "A3")]).2.2 savedBufferedStore (by decide)⟩

/-- C7: `find(id)` returns none on an empty log; fails with `InvalidEvent`
carrying the offending event when the first event of a non-empty log is not
a `Created` variant; and otherwise builds the initial state from the
`Created` payload and folds the remaining `Aggregate` payloads in log order
through `apply_event` (stated here for tombstone-free remainders; a
`Deleted` event in the remainder instead short-circuits to none, see the C4
theorem). -/
theorem c7_find_replays_log (s : OnMemoryEventStore) (id : OrganizationId) :
    (OnMemoryEventStore.loadOrg s id = [] →
        OrganizationCollection.find id s = .ok none)
    ∧ (∀ e rest, OnMemoryEventStore.loadOrg s id = e :: rest →
        (∀ cid data, e ≠ OrganizationCollectionEvent.Created cid data) →
        OrganizationCollection.find id s = .error (.InvalidEvent e))
    ∧ (∀ cid data rest,
        OnMemoryEventStore.loadOrg s id
          = OrganizationCollectionEvent.Created cid data :: rest →
        (∀ d, OrganizationCollectionEvent.Deleted d ∉ rest) →
        OrganizationCollection.find id s
          = .ok (some (List.foldl Organization.applyEvent
              (Organization.new data.1 data.2) (aggPayloads rest)))) := by
  refine ⟨?_, ?_, ?_⟩
  · intro h
    unfold OrganizationCollection.find
    rw [h]
  · intro e rest hlog hne
    unfold OrganizationCollection.find
    rw [hlog]
    match e with
    | .Created cid data => exact absurd rfl (hne cid data)
    | .Aggregate i ev => rfl
    | .Deleted i => rfl
  · intro cid data rest hlog hnd
    unfold OrganizationCollection.find
    rw [hlog]
    show Except.ok (OrganizationCollection.orgFoldRest
        (some (Organization.new data.1 data.2)) rest) = _
    rw [orgFoldRest_eq_foldl rest _ hnd]

/-- C7 witness: an empty log, a log starting with `Deleted`, and a
`Created` + two `Aggregate` events log replayed by folding. -/
theorem c7_find_replays_log_witness :
    OrganizationCollection.find orgB replayStore = .ok none
    ∧ OrganizationCollection.find orgA deletedFirstStore
        = .error (.InvalidEvent (.Deleted orgA))
    ∧ OrganizationCollection.find orgA replayStore
        = .ok (some (List.foldl Organization.applyEvent
            (Organization.new "A" 3)
            (aggPayloads [.Aggregate orgA (.Renamed "A2"),
              .Aggregate orgA (.UserAdded userOne ⟨"A-U"⟩)]))) :=
  ⟨(c7_find_replays_log replayStore orgB).1 (by decide),
   (c7_find_replays_log deletedFirstStore orgA).2.1 (.Deleted orgA) []
     (by decide) (fun cid data h => OrganizationCollectionEvent.noConfusion h),
   (c7_find_replays_log replayStore orgA).2.2 orgA ("A", 3)
     [.Aggregate orgA (.Renamed "A2"),
      .Aggregate orgA (.UserAdded userOne ⟨"A-U"⟩)]
     (by decide) (by intro d hd; simp at hd)⟩

/-- C8: `handle_command(id, cmd)` fails with `NotFound` when `find` yields
none (absent or tombstoned aggregate), touching nothing; on a domain error
from the aggregate it returns that error with the store completely
unchanged (nothing saved, no rollback — the transaction flag is preserved);
on success inside a transaction it tags each produced event with the
aggregate id, appends them as one contiguous batch to that id's buffer
(other ids' buffers and all durable logs untouched), and returns the
"Success" acknowledgement without leaving the transaction. -/
theorem c8_handle_command_dispatch (id : OrganizationId)
    (cmd : OrganizationCommand) (s : OnMemoryEventStore) :
    (OrganizationCollection.find id s = .ok none →
        OrganizationCollection.handleCommand id cmd s
          = (.error (.NotFound id), s))
    ∧ (∀ agg derr, OrganizationCollection.find id s = .ok (some agg) →
        Organization.handleCommand agg cmd = .error derr →
        OrganizationCollection.handleCommand id cmd s
          = (.error (.Origanization derr), s))
    ∧ (∀ agg events, OrganizationCollection.find id s = .ok (some agg) →
        Organization.handleCommand agg cmd = .ok events →
        s.inTransaction = true →
        (OrganizationCollection.handleCommand id cmd s).1 = .ok "Success"
        ∧ alGetD (OrganizationCollection.handleCommand id cmd s).2.orgUncommittedEvents id
            = alGetD s.orgUncommittedEvents id
              ++ events.map (fun e => OrganizationCollectionEvent.Aggregate id e)
        ∧ (∀ id2, id2 ≠ id →
            alGetD (OrganizationCollection.handleCommand id cmd s).2.orgUncommittedEvents id2
              = alGetD s.orgUncommittedEvents id2)
        ∧ (OrganizationCollection.handleCommand id cmd s).2.orgEvents = s.orgEvents
        ∧ (OrganizationCollection.handleCommand id cmd s).2.inTransaction = true) := by
  refine ⟨?_, ?_, ?_⟩
  · intro h
    simp [OrganizationCollection.handleCommand, h]
  · intro agg derr hf hd
    simp [OrganizationCollection.handleCommand, hf, hd]
  · intro agg events hf he hActive
    have hsave : OnMemoryEventStore.saveOrg s
        (events.map fun e => OrganizationCollectionEvent.Aggregate id e)
        = .ok { s with
            orgUncommittedEvents :=
              bufferAll OrganizationCollectionEvent.aggregateId
                s.orgUncommittedEvents
                (events.map fun e =>
                  OrganizationCollectionEvent.Aggregate id e) } := by
      simp [OnMemoryEventStore.saveOrg, hActive]
    have hres : OrganizationCollection.handleCommand id cmd s
        = (.ok "Success", { s with
            orgUncommittedEvents :=
              bufferAll OrganizationCollectionEvent.aggregateId
                s.orgUncommittedEvents
                (events.map fun e =>
                  OrganizationCollectionEvent.Aggregate id e) }) := by
      simp [OrganizationCollection.handleCommand, hf, he, hsave]
    rw [hres]
    refine ⟨rfl, ?_, ?_, rfl, hActive⟩
    · rw [show ({ s with
          orgUncommittedEvents :=
            bufferAll OrganizationCollectionEvent.aggregateId
              s.orgUncommittedEvents
              (events.map fun e =>
                OrganizationCollectionEvent.Aggregate id e) } :
          OnMemoryEventStore).orgUncommittedEvents
          = bufferAll OrganizationCollectionEvent.aggregateId
              s.orgUncommittedEvents
              (events.map fun e =>
                OrganizationCollectionEvent.Aggregate id e) from rfl]
      rw [alGetD_bufferAll, filter_tagged_same]
    · intro id2 hne
      rw [show ({ s with
          orgUncommittedEvents :=
            bufferAll OrganizationCollectionEvent.aggregateId
              s.orgUncommittedEvents
              (events.map fun e =>
                OrganizationCollectionEvent.Aggregate id e) } :
          OnMemoryEventStore).orgUncommittedEvents
          = bufferAll OrganizationCollectionEvent.aggregateId
              s.orgUncommittedEvents
              (events.map fun e =>
                OrganizationCollectionEvent.Aggregate id e) from rfl]
      rw [alGetD_bufferAll, filter_tagged_ne _ _ _ hne, List.append_nil]

/-- C8 witness: a `NotFound` dispatch, a `MaxUsersReached` domain error
that leaves the store untouched, and a successful `Rename` dispatch that
buffers the tagged event. -/
theorem c8_handle_command_dispatch_witness :
    OrganizationCollection.handleCommand orgB (.Rename "X") replayStore
      = (.error (.NotFound orgB), replayStore)
    ∧ OrganizationCollection.handleCommand orgB
        (.AddUser userOne ⟨"x"⟩) fullOrgStore
      = (.error (.Origanization .MaxUsersReached), fullOrgStore)
    ∧ (OrganizationCollection.handleCommand orgA
        (.Rename "Z") activeReplayStore).1 = .ok "Success"
    ∧ alGetD (OrganizationCollection.handleCommand orgA
        (.Rename "Z") activeReplayStore).2.orgUncommittedEvents orgA
      = alGetD activeReplayStore.orgUncommittedEvents orgA
        ++ [OrganizationEvent.Renamed "Z"].map
            (fun e => OrganizationCollectionEvent.Aggregate orgA e) :=
  ⟨(c8_handle_command_dispatch orgB (.Rename "X") replayStore).1 (by decide),
   (c8_handle_command_dispatch orgB (.AddUser userOne ⟨"x"⟩) fullOrgStore).2.1
     { name := "B", users := [], maxUsers := 0 } .MaxUsersReached
     (by decide) (by decide),
   ((c8_handle_command_dispatch orgA (.Rename "Z") activeReplayStore).2.2
     { name := "A2", users := [(userOne, ⟨"A-U"⟩)], maxUsers := 3 }
     [.Renamed "Z"] (by decide) (by decide) rfl).1,
   ((c8_handle_command_dispatch orgA (.Rename "Z") activeReplayStore).2.2
     { name := "A2", users := [(userOne, ⟨"A-U"⟩)], maxUsers := 3 }
     [.Renamed "Z"] (by decide) (by decide) rfl).2.1⟩

/-- C10: `UserCollection::create` increments the length counter and derives
the returned `UserId` from it before attempting the save: the counter ends
up incremented in every outcome, a save failure (Idle store) returns the
wrapped store error with the store unchanged while the counter is already
incremented, a save success returns `UserId(length + 1)`, and a later
`rollback` never removes durable events — so ids generated later can skip
values relative to the committed logs. -/
theorem c10_create_increments_counter (c : UserCollection)
    (data : String × String × OrganizationId × UserOrganizationId)
    (s : OnMemoryEventStore) :
    (UserCollection.create c data s).2.1.length = c.length + 1
    ∧ (s.inTransaction = false →
        (UserCollection.create c data s).1
          = .error (.Store (storeErrFmt ⟨"Not in transaction"⟩))
        ∧ (UserCollection.create c data s).2.2 = s)
    ∧ (s.inTransaction = true →
        (UserCollection.create c data s).1 = .ok ⟨c.length + 1⟩)
    ∧ (∀ t : OnMemoryEventStore,
        (OnMemoryEventStore.rollback t).userEvents = t.userEvents
        ∧ (OnMemoryEventStore.rollback t).orgEvents = t.orgEvents) := by
  refine ⟨?_, ?_, ?_, fun t => ⟨rfl, rfl⟩⟩
  · simp only [UserCollection.create]
    split
    · rfl
    · rfl
  · intro h
    have hsave : OnMemoryEventStore.saveUser s
        [UserCollectionEvent.Created ⟨c.length + 1⟩ data]
        = .error ⟨"Not in transaction"⟩ := by
      simp [OnMemoryEventStore.saveUser, h]
    simp [UserCollection.create, hsave]
  · intro h
    have hsave : OnMemoryEventStore.saveUser s
        [UserCollectionEvent.Created ⟨c.length + 1⟩ data]
        = .ok { s with
            userUncommittedEvents :=
              bufferAll UserCollectionEvent.aggregateId
                s.userUncommittedEvents
                [UserCollectionEvent.Created ⟨c.length + 1⟩ data] } := by
      simp [OnMemoryEventStore.saveUser, h]
    simp only [UserCollection.create, hsave]

/-- C10 witness: a failing create on an Idle store still bumps the counter,
and a create inside a transaction returns the id derived from the bumped
counter. -/
theorem c10_create_increments_counter_witness :
    (UserCollection.create ⟨5⟩ dataEx emptyStore).2.1.length = 5 + 1
    ∧ (UserCollection.create ⟨5⟩ dataEx emptyStore).1
        = .error (.Store (storeErrFmt ⟨"Not in transaction"⟩))
    ∧ (UserCollection.create ⟨5⟩ dataEx activeStore).1 = .ok ⟨5 + 1⟩ :=
  ⟨(c10_create_increments_counter ⟨5⟩ dataEx emptyStore).1,
   ((c10_create_increments_counter ⟨5⟩ dataEx emptyStore).2.1 rfl).1,
   (c10_create_increments_counter ⟨5⟩ dataEx activeStore).2.2.1 rfl⟩

end CruxEs
